import Mathlib

/-!
Shallow embedding of `src/main.rs` of noreflection/lisp: a minimal Lisp
REPL core (tokenizer, reader, evaluator, default environment).

Modelling decisions:
* Rust `f64` is modelled by `ℚ`: every numeric literal and arithmetic
  result appearing in the verified statements is a small integer, exactly
  representable in `f64`, where `f64` addition agrees with rational
  addition.
* Rust's `LangExp::Func(fn ...)` carries a function pointer; the only
  function values the program ever creates are the two closures installed
  by `default_env`, so the variant carries an enumeration `FuncId` and
  `applyFunc` maps each identifier to the embedding of its closure body.
* `LangExp`/`LangExpList` is the usual mutual-inductive presentation of
  the nested type `List LangExp`, so that the evaluator is structurally
  recursive and kernel-computable.
* The Rust reader loop in `read_seq` can run forever (its cursor never
  advances); it is embedded with fuel, `none` meaning "still running
  after `fuel` iterations".
* `eval` takes `&mut LangEnv`; it is embedded in state-passing style,
  returning the environment every call site threads on.
-/

/-- The error type of `main.rs`: `enum LangErr { Reason(String) }`. -/
inductive LangErr where
  | Reason : String → LangErr
deriving DecidableEq, Repr

/-- Identifiers for the function pointers the program creates: exactly the
two closures `default_env` installs for `"+"` and `"-"`. -/
inductive FuncId where
  | plus : FuncId
  | minus : FuncId
deriving DecidableEq, Repr

mutual
/-- `enum LangExp { Symbol(String), Number(f64), List(Vec<LangExp>), Func(..) }`,
with the nested `Vec<LangExp>` presented as the mutual inductive
`LangExpList`. -/
inductive LangExp where
  | Symbol : String → LangExp
  | Number : ℚ → LangExp
  | List : LangExpList → LangExp
  | Func : FuncId → LangExp
deriving DecidableEq

/-- The element list of a `LangExp.List`. -/
inductive LangExpList where
  | nil : LangExpList
  | cons : LangExp → LangExpList → LangExpList
deriving DecidableEq
end

/-- Convert a Lean list of expressions to the mutual-inductive list. -/
def LangExpList.ofList : List LangExp → LangExpList
  | [] => .nil
  | x :: xs => .cons x (LangExpList.ofList xs)

deriving instance DecidableEq for Except

/-- `struct LangEnv { data: HashMap<String, LangExp> }`, with the hash map
modelled as an association list consulted by `List.lookup`. -/
structure LangEnv where
  data : List (String × LangExp)
deriving DecidableEq

/-- Rust `char::is_whitespace`, restricted to the ASCII whitespace the
REPL's single-line inputs can contain. -/
def isWhitespaceChar (c : Char) : Bool :=
  c = ' ' || c = '\t' || c = '\n' || c = '\r'

/-- Rust `str::replace` for a one-character pattern, at character level:
every occurrence of `c` is replaced by `rep`, and the replacement text is
not rescanned. -/
def replaceChar (c : Char) (rep : List Char) : List Char → List Char
  | [] => []
  | x :: xs => if x = c then rep ++ replaceChar c rep xs else x :: replaceChar c rep xs

/-- Rust `str::split_whitespace` at character level: the maximal non-empty
non-whitespace runs, in order.  `acc` holds the current run reversed. -/
def splitWhitespaceAux : List Char → List Char → List String
  | [], acc => if acc = [] then [] else [String.mk acc.reverse]
  | ch :: cs, acc =>
    if isWhitespaceChar ch then
      if acc = [] then splitWhitespaceAux cs []
      else String.mk acc.reverse :: splitWhitespaceAux cs []
    else splitWhitespaceAux cs (ch :: acc)

/-- `fn tokenize(exp: String) -> Vec<String>`: the source replaces `"("`
by `" ( "` and — as written, `.replace(")", " ( ")` — also replaces `")"`
by `" ( "`, then splits on whitespace. -/
def tokenize (exp : String) : List String :=
  splitWhitespaceAux
    (replaceChar ')' (" ( ".data) (replaceChar '(' (" ( ".data) exp.data)) []

/-- Value of a run of decimal digit characters. -/
def digitsVal (ds : List Char) : Nat :=
  ds.foldl (fun n c => 10 * n + (c.toNat - 48)) 0

/-- An optionally signed non-empty digit run that must use up its whole
input: the exponent field of a decimal float literal. -/
def parseSignedDigits (cs : List Char) : Option Int :=
  let stripped : Int × List Char :=
    match cs with
    | '+' :: r => (1, r)
    | '-' :: r => (-1, r)
    | _ => (1, cs)
  let spanned := stripped.2.span (fun c => c.isDigit)
  if spanned.1.isEmpty || !spanned.2.isEmpty then none
  else some (stripped.1 * (digitsVal spanned.1 : Int))

/-- The optional exponent suffix `e`/`E` followed by a signed digit run;
anything else trailing makes the literal invalid. -/
def parseExpSuffix (cs : List Char) : Option Int :=
  match cs with
  | [] => some 0
  | 'e' :: rest => parseSignedDigits rest
  | 'E' :: rest => parseSignedDigits rest
  | _ => none

/-- Model of Rust `str::parse::<f64>` on finite decimal literals: optional
sign, digits, optional `.` and fraction digits (at least one digit in the
mantissa overall), optional exponent.  The non-finite literals (`inf`,
`NaN`, …) Rust also accepts have no image in `ℚ` and are out of scope: no
verified statement depends on them. -/
def parseFloatQ? (s : String) : Option ℚ :=
  let signAndRest : ℚ × List Char :=
    match s.data with
    | '+' :: r => (1, r)
    | '-' :: r => (-1, r)
    | _ => (1, s.data)
  let intSpan := signAndRest.2.span (fun c => c.isDigit)
  let fracSpan : List Char × List Char :=
    match intSpan.2 with
    | '.' :: r => r.span (fun c => c.isDigit)
    | _ => ([], intSpan.2)
  if intSpan.1.isEmpty && fracSpan.1.isEmpty then none
  else
    match parseExpSuffix fracSpan.2 with
    | none => none
    | some e =>
      some (signAndRest.1 *
        ((digitsVal intSpan.1 : ℚ) + (digitsVal fracSpan.1 : ℚ) / 10 ^ fracSpan.1.length) *
        (10 : ℚ) ^ e)

/-- `fn parse_atom(token: &str) -> LangExp`: try the float parse, fall back
to a Symbol carrying the token text. -/
def parse_atom (token : String) : LangExp :=
  match parseFloatQ? token with
  | some v => .Number v
  | none => .Symbol token

/-- The body of the source's `read_seq` loop, with fuel.  The loop splits
off the next token; an empty slice is the missing-`)` error, a `")"` head
returns `List res` and the tokens past the `")"`.  On any other token the
source neither pushes to `res` nor advances `xs`, so the embedded loop
recurses on the very same state; `none` means the loop is still running
when the fuel runs out. -/
def read_seq_loop : Nat → List LangExp → List String →
    Option (Except LangErr (LangExp × List String))
  | 0, _, _ => none
  | fuel + 1, res, xs =>
    match xs with
    | [] => some (Except.error (LangErr.Reason "could not find closing `)`"))
    | next_token :: rest =>
      if next_token = ")" then
        some (Except.ok (LangExp.List (LangExpList.ofList res), rest))
      else
        read_seq_loop fuel res xs

/-- `fn read_seq(tokens: &[String])`: run the loop from an empty result
vector. -/
def read_seq (fuel : Nat) (tokens : List String) :
    Option (Except LangErr (LangExp × List String)) :=
  read_seq_loop fuel [] tokens

/-- `fn parse(tokens: &[String])`: split off the first token and dispatch
on it.  `none` propagates `read_seq` running out of fuel. -/
def parse (fuel : Nat) (tokens : List String) :
    Option (Except LangErr (LangExp × List String)) :=
  match tokens with
  | [] => some (Except.error (LangErr.Reason "could not get token"))
  | token :: rest =>
    if token = "(" then read_seq fuel rest
    else if token = ")" then some (Except.error (LangErr.Reason "unexpected `)`"))
    else some (Except.ok (parse_atom token, rest))

/-- `fn parse_single_float(exp: &LangExp) -> Result<f64, LangErr>`. -/
def parse_single_float : LangExp → Except LangErr ℚ
  | .Number num => Except.ok num
  | _ => Except.error (LangErr.Reason "expected a number")

/-- `fn parse_list_of_floats`: map `parse_single_float` and collect into a
`Result`, stopping at the first error, exactly as Rust's
`collect::<Result<Vec<_>, _>>()`. -/
def parse_list_of_floats : List LangExp → Except LangErr (List ℚ)
  | [] => Except.ok []
  | x :: xs =>
    match parse_single_float x with
    | Except.error e => Except.error e
    | Except.ok v =>
      match parse_list_of_floats xs with
      | Except.error e => Except.error e
      | Except.ok vs => Except.ok (v :: vs)

/-- The closure `default_env` installs under `"+"`: sum of the parsed
floats, folded left-to-right from `0.0`. -/
def plusFn (args : List LangExp) : Except LangErr LangExp :=
  match parse_list_of_floats args with
  | Except.error e => Except.error e
  | Except.ok floats => Except.ok (LangExp.Number (floats.foldl (fun sum a => sum + a) 0))

/-- The closure `default_env` installs under `"-"`: requires a first float,
then — as the source is written — returns `sum_of_rest`, the fold of the
arguments after the first, with the first argument bound but unused. -/
def minusFn (args : List LangExp) : Except LangErr LangExp :=
  match parse_list_of_floats args with
  | Except.error e => Except.error e
  | Except.ok floats =>
    match floats with
    | [] => Except.error (LangErr.Reason "expected at least one number")
    | _first :: rest => Except.ok (LangExp.Number (rest.foldl (fun sum a => sum + a) 0))

/-- Dispatch a `LangExp.Func` identifier to the embedded closure body. -/
def applyFunc : FuncId → List LangExp → Except LangErr LangExp
  | .plus, args => plusFn args
  | .minus, args => minusFn args

/-- `fn default_env() -> LangEnv`: a fresh map holding the `"+"` and `"-"`
procedures. -/
def default_env : LangEnv :=
  ⟨[("+", LangExp.Func FuncId.plus), ("-", LangExp.Func FuncId.minus)]⟩

mutual
/-- `fn eval(exp: &LangExp, env: &mut LangEnv)`, in state-passing style:
the returned environment is the state behind the `&mut` reference when
`eval` returns. -/
def eval : LangExp → LangEnv → Except LangErr LangExp × LangEnv
  | .Symbol k, env =>
    match env.data.lookup k with
    | some x => (Except.ok x, env)
    | none => (Except.error (LangErr.Reason ("unexpected symbol k='" ++ k ++ "'")), env)
  | .Number a, env => (Except.ok (LangExp.Number a), env)
  | .List .nil, env => (Except.error (LangErr.Reason "expected a non-empty list"), env)
  | .List (.cons first_form arg_forms), env =>
    match eval first_form env with
    | (Except.error e, env1) => (Except.error e, env1)
    | (Except.ok (LangExp.Func f), env1) =>
      (match evalArgs arg_forms env1 with
       | (Except.error e, env2) => (Except.error e, env2)
       | (Except.ok args_eval, env2) => (applyFunc f args_eval, env2))
    | (Except.ok _, env1) =>
      (Except.error (LangErr.Reason "first form must be a function"), env1)
  | .Func _, env => (Except.error (LangErr.Reason "unexpected form"), env)

/-- The evaluation of `arg_forms` by `.iter().map(|x| eval(x, env))
.collect::<Result<Vec<LangExp>, LangErr>>()`: left-to-right, stopping at
the first error, threading the `&mut` environment. -/
def evalArgs : LangExpList → LangEnv → Except LangErr (List LangExp) × LangEnv
  | .nil, env => (Except.ok [], env)
  | .cons x xs, env =>
    match eval x env with
    | (Except.error e, env1) => (Except.error e, env1)
    | (Except.ok v, env1) =>
      match evalArgs xs env1 with
      | (Except.error e, env2) => (Except.error e, env2)
      | (Except.ok vs, env2) => (Except.ok (v :: vs), env2)
end

/-- Printed form of a `ℚ`-modelled number, standing in for Rust
`f64::to_string`: integral values print with no decimal point, as Rust
prints `15f64` as `"15"`.  Only called on values the claims never inspect
beyond symbols. -/
def numToString (q : ℚ) : String :=
  if q.den = 1 then toString q.num else toString q.num ++ "/" ++ toString q.den

mutual
/-- `impl fmt::Display for LangExp`: symbols verbatim, numbers via
`to_string`, lists comma-joined inside parentheses, functions as a fixed
placeholder. -/
def LangExp.print : LangExp → String
  | .Symbol s => s
  | .Number n => numToString n
  | .List list => "(" ++ String.intercalate "," (LangExpList.printElems list) ++ ")"
  | .Func _ => "Function \x7b\x7d"

/-- The element strings of a printed list. -/
def LangExpList.printElems : LangExpList → List String
  | .nil => []
  | .cons x xs => LangExp.print x :: LangExpList.printElems xs
end

/-- `fn parse_eval(exp: String, env: &mut LangEnv)`: parse the tokenized
input, drop the leftover tokens, and evaluate; `none` propagates the
reader running out of fuel. -/
def parse_eval (fuel : Nat) (exp : String) (env : LangEnv) :
    Option (Except LangErr LangExp × LangEnv) :=
  match parse fuel (tokenize exp) with
  | none => none
  | some (Except.error e) => some (Except.error e, env)
  | some (Except.ok (parsed_exp, _)) =>
    match eval parsed_exp env with
    | (Except.error e, env1) => (some (Except.error e, env1))
    | (Except.ok v, env1) => some (Except.ok v, env1)

/-- Is the expression a `Number`?  The test `parse_single_float` performs. -/
def LangExp.isNumber : LangExp → Bool
  | .Number _ => true
  | _ => false

/-! ## Helper lemmas -/

/-- The source's list-reading loop never takes a step on a non-`)` token:
its cursor `xs` is re-examined unchanged, so no amount of fuel finishes. -/
theorem read_seq_loop_stuck (fuel : Nat) (res : List LangExp) (t : String)
    (rest : List String) (ht : t ≠ ")") :
    read_seq_loop fuel res (t :: rest) = none := by
  induction fuel with
  | zero => rfl
  | succ n ih => simpa [read_seq_loop, ht] using ih

mutual
/-- `eval` returns the environment it was given: the `&mut LangEnv` is
never written. -/
theorem eval_env_invariant : ∀ (e : LangExp) (env : LangEnv), (eval e env).2 = env
  | .Symbol k, env => by
    unfold eval
    cases h : env.data.lookup k <;> simp [h]
  | .Number a, env => by simp [eval]
  | .List .nil, env => by simp [eval]
  | .List (.cons f args), env => by
    unfold eval
    rcases h1 : eval f env with ⟨r1, env1⟩
    have he1 : env1 = env := by have := eval_env_invariant f env; rw [h1] at this; exact this
    cases r1 with
    | error e => simp [h1, he1]
    | ok v =>
      cases v with
      | Func fid =>
        rcases h2 : evalArgs args env1 with ⟨r2, env2⟩
        have he2 : env2 = env := by
          have h := evalArgs_env_invariant args env1; rw [h2] at h; simpa [he1] using h
        cases r2 <;> simp [h1, h2, he2]
      | Symbol s => simp [h1, he1]
      | Number n => simp [h1, he1]
      | List l => simp [h1, he1]
  | .Func _, env => by simp [eval]

/-- `evalArgs` returns the environment it was given. -/
theorem evalArgs_env_invariant :
    ∀ (l : LangExpList) (env : LangEnv), (evalArgs l env).2 = env
  | .nil, env => by simp [evalArgs]
  | .cons x xs, env => by
    unfold evalArgs
    rcases h1 : eval x env with ⟨r1, env1⟩
    have he1 : env1 = env := by have := eval_env_invariant x env; rw [h1] at this; exact this
    cases r1 with
    | error e => simp [h1, he1]
    | ok v =>
      rcases h2 : evalArgs xs env1 with ⟨r2, env2⟩
      have he2 : env2 = env := by
        have h := evalArgs_env_invariant xs env1; rw [h2] at h; simpa [he1] using h
      cases r2 <;> simp [h1, h2, he2]
end

/-- `parse_list_of_floats` on a list of Numbers succeeds with exactly their
values, in order. -/
theorem parse_list_of_floats_map (xs : List ℚ) :
    parse_list_of_floats (xs.map LangExp.Number) = Except.ok xs := by
  induction xs with
  | nil => rfl
  | cons x xs ih => simp [parse_list_of_floats, parse_single_float, ih]

/-- `parse_list_of_floats` on a list holding any non-Number fails with the
fixed message of `parse_single_float`. -/
theorem parse_list_of_floats_nonnumber : ∀ (args : List LangExp),
    (∃ x ∈ args, x.isNumber = false) →
    parse_list_of_floats args = Except.error (LangErr.Reason "expected a number") := by
  intro args
  induction args with
  | nil => rintro ⟨x, hx, _⟩; cases hx
  | cons a rest ih =>
    rintro ⟨x, hx, hnum⟩
    rcases List.mem_cons.mp hx with h | h
    · subst h
      cases x <;> simp_all [parse_list_of_floats, parse_single_float, LangExp.isNumber]
    · cases a with
      | Number n =>
        have := ih ⟨x, h, hnum⟩
        simp [parse_list_of_floats, parse_single_float, this]
      | Symbol s => simp [parse_list_of_floats, parse_single_float]
      | List l => simp [parse_list_of_floats, parse_single_float]
      | Func f => simp [parse_list_of_floats, parse_single_float]

/-- If a prefix of the argument forms evaluates cleanly and the next form
evaluates to an error, the whole left-to-right argument evaluation returns
exactly that error, whatever comes after. -/
theorem evalArgs_first_error : ∀ (pre post : List LangExp) (bad : LangExp)
    (env : LangEnv) (vs : List LangExp) (e : LangErr),
    (evalArgs (LangExpList.ofList pre) env).1 = Except.ok vs →
    (eval bad env).1 = Except.error e →
    (evalArgs (LangExpList.ofList (pre ++ bad :: post)) env).1 = Except.error e := by
  intro pre
  induction pre with
  | nil =>
    intro post bad env vs e _ hbad
    rcases hb : eval bad env with ⟨r1, env1⟩
    rw [hb] at hbad
    simp at hbad
    subst hbad
    simp [LangExpList.ofList, evalArgs, hb]
  | cons p ps ih =>
    intro post bad env vs e hpre hbad
    rcases hp : eval p env with ⟨r1, env1⟩
    have he1 : env1 = env := by
      have := eval_env_invariant p env; rw [hp] at this; exact this
    subst he1
    cases r1 with
    | error e0 =>
      rw [LangExpList.ofList, evalArgs, hp] at hpre
      simp at hpre
    | ok v =>
      rcases hrest : evalArgs (LangExpList.ofList ps) env1 with ⟨r2, env2⟩
      rw [LangExpList.ofList, evalArgs, hp] at hpre
      simp only [hrest] at hpre
      cases r2 with
      | error e2 => simp at hpre
      | ok vs2 =>
        rcases hrec : evalArgs (LangExpList.ofList (ps ++ bad :: post)) env1 with ⟨r3, env3⟩
        have h3 : r3 = Except.error e := by
          have := ih post bad env1 vs2 e (by rw [hrest]) hbad
          rw [hrec] at this; simpa using this
        subst h3
        rw [List.cons_append, LangExpList.ofList, evalArgs, hp]
        simp [hrec]

/-! ## The claims -/

/-- C1: the spec's scenario says the pipeline maps the input line
`(+ 10 5)` to the Number 15, printed `15`.  The code never gets there:
`tokenize` turns the closing `)` into a `(` token and the `read_seq` loop
then spins forever on the `+` token, so `parse_eval` is still running
after any amount of fuel. -/
theorem parse_eval_plus_10_5_diverges :
    ∀ fuel : Nat, parse_eval fuel "(+ 10 5)" default_env = none := by
  intro fuel
  have ht : tokenize "(+ 10 5)" = ["(", "+", "10", "5", "("] := by decide
  have hs := read_seq_loop_stuck fuel [] "+" ["10", "5", "("] (by decide)
  simp [parse_eval, ht, parse, read_seq, hs]

/-- C2: the claim says the parser terminates on every token sequence and,
after a `(`, consumes each sub-expression's tokens up to the matching `)`.
On the well-formed token sequence `["(", "x", ")"]` the reader loop never
advances its cursor past `"x"`, so `parse` is still running after any
amount of fuel: the code contradicts the claimed termination. -/
theorem parse_wellformed_list_diverges :
    ∀ fuel : Nat, parse fuel ["(", "x", ")"] = none := by
  intro fuel
  have hs := read_seq_loop_stuck fuel [] "x" [")"] (by decide)
  simp [parse, read_seq, hs]

/-- C3: the claim says every `)` becomes a `)` token.  In the code the
second `replace` writes `" ( "` for `")"`, so the input `")"` lexes to the
token `"("`, and the closing parenthesis of `"(+ 10 5)"` also lexes to
`"("`. -/
theorem tokenize_turns_close_paren_into_open :
    tokenize ")" = ["("] ∧ tokenize "(+ 10 5)" = ["(", "+", "10", "5", "("] := by
  decide

/-- C4: the claim says `-` with one argument `x` yields `-x` and with more
arguments the left-associative difference.  The code computes
`sum_of_rest`, the sum of the arguments after the first, and returns that:
`(- 7)` evaluates to `0`, not `-7`.  Only the zero-argument
missing-required-argument error matches the claim. -/
theorem minus_returns_sum_of_rest :
    (∀ (x : ℚ) (rest : List ℚ),
      minusFn (LangExp.Number x :: rest.map LangExp.Number) =
        Except.ok (LangExp.Number (rest.foldl (fun sum a => sum + a) 0))) ∧
    (eval (LangExp.List (.cons (.Symbol "-") (.cons (.Number 7) .nil))) default_env).1 =
      Except.ok (LangExp.Number 0) ∧
    minusFn [] = Except.error (LangErr.Reason "expected at least one number") := by
  refine ⟨?_, rfl, rfl⟩
  intro x rest
  have h := parse_list_of_floats_map (x :: rest)
  simp only [List.map_cons] at h
  simp [minusFn, h]

/-- C5: the `+` built-in applied to any list of Numbers — the empty list
included — returns the left-to-right fold of their sum starting from 0,
exactly as the claim states. -/
theorem plus_folds_left_from_zero (xs : List ℚ) :
    applyFunc FuncId.plus (xs.map LangExp.Number) =
      Except.ok (LangExp.Number (xs.foldl (fun sum a => sum + a) 0)) := by
  simp [applyFunc, plusFn, parse_list_of_floats_map]

/-- C6: the parser returns an error exactly in the claimed cases: an empty
token sequence at the outer call (`could not get token`), a leading `)`
(`unexpected `)``), or the token sequence running empty while the list
loop scans for `)` — which, the cursor never advancing, happens exactly
when nothing follows the `(` (`could not find closing `)``). -/
theorem parse_error_cases (fuel : Nat) (tokens : List String) (e : LangErr) :
    parse (fuel + 1) tokens = some (Except.error e) ↔
      (tokens = [] ∧ e = LangErr.Reason "could not get token") ∨
      (tokens.head? = some ")" ∧ e = LangErr.Reason "unexpected `)`") ∨
      (tokens = ["("] ∧ e = LangErr.Reason "could not find closing `)`") := by
  match tokens with
  | [] => simp [parse, eq_comm]
  | token :: rest =>
    by_cases h1 : token = "("
    · subst h1
      match rest with
      | [] => simp [parse, read_seq, read_seq_loop, eq_comm]
      | r0 :: rrest =>
        by_cases h2 : r0 = ")"
        · subst h2
          simp [parse, read_seq, read_seq_loop]
        · have hs := read_seq_loop_stuck (fuel + 1) [] r0 rrest h2
          simp [parse, read_seq, hs, h2]
    · by_cases h2 : token = ")"
      · subst h2
        simp [parse, eq_comm]
      · simp [parse, h1, h2]

/-- C7: in a call form the head is evaluated before any argument — an
error in the head is the call's error whatever the arguments are — and
the arguments are evaluated left-to-right, the first erroring argument's
error aborting the call whatever follows it. -/
theorem eval_call_order :
    (∀ (env : LangEnv) (h0 : LangExp) (args : LangExpList) (e : LangErr),
      (eval h0 env).1 = Except.error e →
      (eval (LangExp.List (.cons h0 args)) env).1 = Except.error e) ∧
    (∀ (env : LangEnv) (h0 : LangExp) (fid : FuncId) (pre post : List LangExp)
      (bad : LangExp) (e : LangErr) (vs : List LangExp),
      (eval h0 env).1 = Except.ok (LangExp.Func fid) →
      (evalArgs (LangExpList.ofList pre) env).1 = Except.ok vs →
      (eval bad env).1 = Except.error e →
      (eval (LangExp.List (.cons h0 (LangExpList.ofList (pre ++ bad :: post)))) env).1 =
        Except.error e) := by
  constructor
  · intro env h0 args e hh
    rcases he : eval h0 env with ⟨r, env1⟩
    rw [he] at hh
    simp at hh
    subst hh
    unfold eval
    simp [he]
  · intro env h0 fid pre post bad e vs hh hpre hbad
    rcases hargs : evalArgs (LangExpList.ofList (pre ++ bad :: post)) env with ⟨r2, env2⟩
    have h2 : r2 = Except.error e := by
      have := evalArgs_first_error pre post bad env vs e hpre hbad
      rw [hargs] at this
      simpa using this
    subst h2
    rcases he : eval h0 env with ⟨r1, env1⟩
    have henv : env1 = env := by
      have := eval_env_invariant h0 env; rw [he] at this; exact this
    rw [he] at hh
    simp at hh
    subst hh
    unfold eval
    simp [he, henv, hargs]

/-- C7 at a concrete input: in `(+ 1 zzz 2)` the malformed second argument
`zzz` is reported even though the third argument is a valid Number. -/
theorem eval_call_order_witness :
    (eval (LangExp.List (.cons (.Symbol "+") (.cons (.Number 1)
        (.cons (.Symbol "zzz") (.cons (.Number 2) .nil))))) default_env).1 =
      Except.error (LangErr.Reason "unexpected symbol k='zzz'") :=
  eval_call_order.2 default_env (.Symbol "+") FuncId.plus [.Number 1] [.Number 2]
    (.Symbol "zzz") (LangErr.Reason "unexpected symbol k='zzz'") [.Number 1]
    (by decide) (by decide) (by decide)

/-- C8, counterexample: the claim says the expected-number error carries
the offending value's printed form.  Passing the Symbol `foo` (printed
`foo`) to `+` yields the fixed message `expected a number`, in which the
printed form does not occur. -/
theorem plus_error_message_lacks_value :
    applyFunc FuncId.plus [LangExp.Symbol "foo"] =
      Except.error (LangErr.Reason "expected a number") ∧
    LangExp.print (LangExp.Symbol "foo") = "foo" ∧
    ¬ ("foo".data <:+: "expected a number".data) :=
  ⟨by decide, by decide, by decide⟩

/-- C8, amended: passing any non-Number argument to `+` or `-` yields the
expected-number error with the fixed message `expected a number`, which
does not include the offending value's printed form. -/
theorem arith_nonnumber_fixed_error (fid : FuncId) (args : List LangExp)
    (hx : ∃ x ∈ args, LangExp.isNumber x = false) :
    applyFunc fid args = Except.error (LangErr.Reason "expected a number") := by
  cases fid <;> simp [applyFunc, plusFn, minusFn, parse_list_of_floats_nonnumber args hx]

/-- C8's amended theorem at a concrete input: `-` applied to a Number and
a Symbol. -/
theorem arith_nonnumber_fixed_error_witness :
    applyFunc FuncId.minus [LangExp.Number 1, LangExp.Symbol "bar"] =
      Except.error (LangErr.Reason "expected a number") :=
  arith_nonnumber_fixed_error FuncId.minus _ ⟨LangExp.Symbol "bar", by decide, rfl⟩

/-- C9: evaluating a Symbol with no binding yields the undefined-symbol
error, and the error message contains the symbol's exact text. -/
theorem undefined_symbol_error_names_symbol (env : LangEnv) (k : String)
    (hk : env.data.lookup k = none) :
    (eval (LangExp.Symbol k) env).1 =
      Except.error (LangErr.Reason ("unexpected symbol k='" ++ k ++ "'")) ∧
    k.data <:+: ("unexpected symbol k='" ++ k ++ "'").data := by
  constructor
  · simp [eval, hk]
  · refine ⟨"unexpected symbol k='".data, "'".data, ?_⟩
    simp [String.data_append]

/-- C9 at a concrete input: `myvar` is unbound in the default environment
and its error message contains `myvar`. -/
theorem undefined_symbol_error_names_symbol_witness :
    (eval (LangExp.Symbol "myvar") default_env).1 =
      Except.error (LangErr.Reason ("unexpected symbol k='" ++ "myvar" ++ "'")) ∧
    "myvar".data <:+: ("unexpected symbol k='" ++ "myvar" ++ "'").data :=
  undefined_symbol_error_names_symbol default_env "myvar" (by decide)

/-- C10: evaluation never modifies the environment: for every Expression
and environment, the mapping `eval` hands back — the state behind the
`&mut LangEnv` — is the one it was given, on success and on error alike. -/
theorem eval_leaves_env_unchanged (e : LangExp) (env : LangEnv) :
    (eval e env).2 = env :=
  eval_env_invariant e env
